import Mathlib

/-!
Verification of the batch cache scanner (`scripts/batch_cache.py`) and the
repository manager (`scripts/repo_manager.py`): file discovery, per-file
analyzer-outcome classification, run aggregation, conditional commit, exit
status, and the repository store operations.
-/

namespace Audit

/-- `occursIn pat s` holds when `pat` occurs contiguously inside `s`. -/
def occursIn : List Char → List Char → Bool
  | pat, [] => pat.isEmpty
  | pat, c :: t => pat.isPrefixOf (c :: t) || occursIn pat t

/-- Python substring containment (`pat in s`), on the character lists. -/
def strContainsSub (s pat : String) : Bool :=
  occursIn pat.toList s.toList

/-- `s` ends with `pat`, on the character lists. -/
def strEndsWith (s pat : String) : Bool :=
  pat.toList.reverse.isPrefixOf s.toList.reverse

/-- First line of a string: `s.split("\n")[0]` in the source, i.e. the
characters before the first newline. -/
def firstLine (s : String) : String :=
  String.mk (s.toList.takeWhile (fun c => c ≠ '\n'))

/-- Lexicographic comparison of character lists, the order the Python builtin `sorted`
uses on path strings (codepoint by codepoint, shorter prefix first). -/
def leChars : List Char → List Char → Bool
  | [], _ => true
  | _ :: _, [] => false
  | a :: as, b :: bs => if a < b then true else if b < a then false else leChars as bs

/-- Lexicographic order on path strings. -/
def strLeb (a b : String) : Bool :=
  leChars a.toList b.toList

/-- The possible ways one analyzer subprocess invocation can end, as seen by
`analyze_file`: normal completion with an exit code and captured stdout/stderr,
a `subprocess.TimeoutExpired`, or any other raised exception. -/
inductive InvocationEvent where
  | completed (returncode : Int) (stdout stderr : String)
  | timedOut
  | raised (msg : String)
deriving DecidableEq

/-- `analyze_file` from `scripts/batch_cache.py` (lines 78-117): classifies one
invocation into the `(success, cached, message)` triple the script uses. -/
def analyze_file : InvocationEvent → Bool × Bool × String
  | .completed rc out err =>
      let output := out ++ err
      if rc ≠ 0 then
        (false, false, if output ≠ "" then firstLine output else "Unknown error")
      else if strContainsSub output "Using cached" then
        (true, true, "cached")
      else if strContainsSub output "Analysis cached" then
        (true, false, "new")
      else
        (true, false, "analyzed")
  | .timedOut => (false, false, "timeout")
  | .raised msg => (false, false, msg)

/-- The tagged outcome of the spec: `Success{cached}` or `Failure{reason}`. -/
inductive InvocationOutcome where
  | success (cached : Bool)
  | failure (reason : String)
deriving DecidableEq

/-- View of the `(success, cached, message)` triple of the script as the
tagged outcome of the spec: first component `true` is `Success{cached}`, first component
`false` is `Failure{reason = message}`. -/
def outcomeOfTriple : Bool × Bool × String → InvocationOutcome
  | (true, c, _) => .success c
  | (false, _, reason) => .failure reason

/-- Written from the claim C1 text verbatim (sentinel spelled lowercase
"unknown error" as the claim quotes it), to compare with the code. -/
def specClassifyClaimed (rc : Int) (output : String) : InvocationOutcome :=
  if rc ≠ 0 then
    .failure (if output = "" then "unknown error" else firstLine output)
  else if strContainsSub output "Using cached" then .success true
  else if strContainsSub output "Analysis cached" then .success false
  else .success false

/-- The classification policy of claim C1 with the sentinel as the code spells it
("Unknown error"), the only amendment forced by the code. -/
def specClassifyAmended (rc : Int) (output : String) : InvocationOutcome :=
  if rc ≠ 0 then
    .failure (if output = "" then "Unknown error" else firstLine output)
  else if strContainsSub output "Using cached" then .success true
  else if strContainsSub output "Analysis cached" then .success false
  else .success false

/-- The mutable `stats` dictionary of `main` (line 215): counts of fresh
analyses (`success`), cache hits (`cached`), failures (`failed`), and the
ordered `(path, message)` error list. -/
structure Stats where
  success : Nat
  cached : Nat
  failed : Nat
  errors : List (String × String)
deriving DecidableEq

/-- `stats = {"success": 0, "cached": 0, "failed": 0, "errors": []}`. -/
def initStats : Stats := ⟨0, 0, 0, []⟩

/-- One iteration of the dispatch loop of `main` (lines 217-233): fold one
`analyze_file` result triple into the statistics. -/
def accumulate (s : Stats) (path : String) (r : Bool × Bool × String) : Stats :=
  if r.1 then
    if r.2.1 then { s with cached := s.cached + 1 }
    else { s with success := s.success + 1 }
  else
    { s with failed := s.failed + 1, errors := s.errors ++ [(path, r.2.2)] }

/-- The dispatch loop folded from an arbitrary starting state. -/
def runFoldFrom (s : Stats) (l : List (String × (Bool × Bool × String))) : Stats :=
  l.foldl (fun acc pr => accumulate acc pr.1 pr.2) s

/-- The whole dispatch loop of `main`: each `(path, analyze_file result)` pair
accumulated in order starting from the zeroed statistics. -/
def runFold (l : List (String × (Bool × Bool × String))) : Stats :=
  runFoldFrom initStats l

/-- `rust_files[: args.limit]` guarded by `if args.limit:` (lines 200-201).
`args.limit` is `None` when the flag is absent; Python truthiness makes both
`None` and `0` skip the slice, and a Python slice `l[:n]` with negative `n`
keeps all but the last `|n|` elements. -/
def applyLimit (limit : Option Int) (files : List String) : List String :=
  match limit with
  | none => files
  | some n =>
      if n = 0 then files
      else if 0 < n then files.take n.toNat
      else files.take (files.length - n.natAbs)

/-- The `repo_path.rglob("*.rs")` enumeration restricted to Rust sources: the
candidate paths whose name ends in `.rs`, in filesystem iteration order. -/
def rglobRs (files : List String) : List String :=
  files.filter (fun f => strEndsWith f ".rs")

/-- The default `exclude_patterns` of `find_rust_files` (line 28), used when
the caller passes `None`. -/
def find_rust_files_default_excludes : List String :=
  ["/target/", "/.git/", "/examples/", "/benches/"]

/-- `find_rust_files` from `scripts/batch_cache.py` (lines 25-37): drop every
path containing one of the exclusion patterns as a substring, then
`sorted(...)`. The filesystem enumeration is passed in as `files`. -/
def find_rust_files (files : List String) (exclude_patterns : Option (List String)) :
    List String :=
  let pats := exclude_patterns.getD find_rust_files_default_excludes
  List.insertionSort (fun a b => strLeb a b = true)
    ((rglobRs files).filter (fun f => !(pats.any (fun p => strContainsSub f p))))

/-- What the commit phase of `main` (lines 264-288) ends up doing. -/
inductive CommitAction where
  | notEntered
  | skippedNotGitRepo
  | noChanges
  | committed
deriving DecidableEq

/-- The commit phase of `main`: entered only when `args.commit and
stats["success"] > 0`; inside, `git rev-parse --git-dir` exit code 0 means the
directory is a git repository, and `git diff --staged --quiet` exiting
non-zero means the stage is non-empty, which alone triggers `git commit`. -/
def commitStep (commitFlag : Bool) (s : Stats) (revParseRc diffStagedRc : Int) :
    CommitAction :=
  if commitFlag = true ∧ 0 < s.success then
    if revParseRc = 0 then
      if diffStagedRc ≠ 0 then .committed else .noChanges
    else .skippedNotGitRepo
  else .notEntered

/-- The exit status of `main` past its preconditions (lines 207-209 and
291-295): an empty file list returns early (exit 0); otherwise exit 1 iff any
failure was counted. -/
def runExitCode (l : List (String × (Bool × Bool × String))) : Nat :=
  if l.length = 0 then 0
  else if 0 < (runFold l).failed then 1 else 0

/-- Modelled from the spec: the Eligibility Scheduler (`dueForScan`) is
declared in the spec (section 4.5) but no implementation of it is present
under `src/`; only the `repositories` columns it reads
(`auto_scan_enabled`, `scan_interval_minutes`, `last_scan_check`) appear in
`repo_manager.py`. The record carries exactly the fields read by the
eligibility rule of the spec. -/
structure RepositoryRecord where
  auto_scan_enabled : Bool
  scan_interval_minutes : Nat
  last_scan_check : Option Int
deriving DecidableEq

/-- Modelled from the spec: a record is due iff `auto_scan_enabled` is true
and (`last_scan_check` is unset or `now - last_scan_check >=
interval_minutes * 60`). -/
def isDue (r : RepositoryRecord) (now : Int) : Bool :=
  r.auto_scan_enabled &&
    (match r.last_scan_check with
     | none => true
     | some t => decide ((r.scan_interval_minutes : Int) * 60 ≤ now - t))

/-- A row of the `repositories` table as `repo_manager.py` reads and writes
it (the columns touched by add/enable/disable). -/
structure RepoRecord where
  id : String
  path : String
  name : String
  status : String
  auto_scan_enabled : Bool
  scan_interval_minutes : Nat
  created_at : Int
  updated_at : Int
deriving DecidableEq

/-- `RepoManager.add_repo` (lines 88-125): existence prompt, duplicate-path
check (`SELECT COUNT(*) ... WHERE path = ?`), then the INSERT with status
`active`, auto-scan off and a 60 minute interval. Returns the new store, the
boolean result, and the log line the branch prints. -/
def add_repo (store : List RepoRecord) (pathExists confirmAnyway : Bool)
    (path name uuid : String) (now : Int) : List RepoRecord × Bool × String :=
  if !pathExists && !confirmAnyway then
    (store, false, "Skipping...")
  else if 0 < (store.filter (fun r => r.path = path)).length then
    (store, false, "Repository already exists: " ++ name)
  else
    (store ++ [{ id := uuid, path := path, name := name, status := "active",
                 auto_scan_enabled := false, scan_interval_minutes := 60,
                 created_at := now, updated_at := now }],
     true, "Added repository: " ++ name)

/-- `RepoManager.enable_scan` (lines 127-152): the UPDATE sets the flag,
interval and `updated_at` on every row with the given name; `cursor.rowcount`
is the number of matched rows, and zero matches is reported as not found. -/
def enable_scan (store : List RepoRecord) (name : String) (interval : Nat)
    (now : Int) : List RepoRecord × Bool × String :=
  let updated := store.map (fun r =>
    if r.name = name then
      { r with auto_scan_enabled := true, scan_interval_minutes := interval,
               updated_at := now }
    else r)
  if 0 < (store.filter (fun r => r.name = name)).length then
    (updated, true, "Enabled auto-scan for " ++ name)
  else
    (updated, false, "Repository not found: " ++ name)

/-- `argparse` `action="store_true"` semantics: the option value is `True`
when the flag is present on the command line, the declared default otherwise. -/
def store_true_value (defaultVal flagPresent : Bool) : Bool :=
  if flagPresent then true else defaultVal

/-- `args.exclude_tests`: `--exclude-tests` is declared `store_true` with
`default=True` (lines 158-163). -/
def exclude_tests_value (flagPresent : Bool) : Bool :=
  store_true_value true flagPresent

/-- The exclusion set `main` builds (lines 194-196): the base patterns plus
the test/bench/example patterns when `args.exclude_tests` is truthy. -/
def mainExcludePatterns (flagPresent : Bool) : List String :=
  let pats := ["/target/", "/.git/"]
  if exclude_tests_value flagPresent then
    pats ++ ["/tests/", "/benches/", "/examples/"]
  else pats

theorem runFoldFrom_cons (s : Stats) (x : String × (Bool × Bool × String))
    (xs : List (String × (Bool × Bool × String))) :
    runFoldFrom s (x :: xs) = runFoldFrom (accumulate s x.1 x.2) xs := rfl

theorem runFoldFrom_counts (l : List (String × (Bool × Bool × String))) :
    ∀ s : Stats,
      (runFoldFrom s l).success + (runFoldFrom s l).cached + (runFoldFrom s l).failed =
        s.success + s.cached + s.failed + l.length := by
  induction l with
  | nil => intro s; simp [runFoldFrom]
  | cons x xs ih =>
    intro s
    rw [runFoldFrom_cons, ih]
    unfold accumulate
    split_ifs <;> simp <;> omega

theorem runFoldFrom_errors_len (l : List (String × (Bool × Bool × String))) :
    ∀ s : Stats, s.errors.length = s.failed →
      (runFoldFrom s l).errors.length = (runFoldFrom s l).failed := by
  induction l with
  | nil => intro s h; exact h
  | cons x xs ih =>
    intro s h
    rw [runFoldFrom_cons]
    refine ih _ ?_
    unfold accumulate
    split_ifs <;> simp [h]

theorem mem_errors_runFoldFrom (l : List (String × (Bool × Bool × String))) :
    ∀ (s : Stats) (x : String × String), x ∈ s.errors → x ∈ (runFoldFrom s l).errors := by
  induction l with
  | nil => intro s x hx; exact hx
  | cons y ys ih =>
    intro s x hx
    rw [runFoldFrom_cons]
    refine ih _ x ?_
    unfold accumulate
    split_ifs <;> simp [hx]

/-- Claim C1 (counterexample): at exit code 1 with empty captured output the
code returns the reason "Unknown error" (capital U), while the claim as
stated predicts the lowercase sentinel "unknown error"; the two outcomes
differ. -/
theorem c1_sentinel_counterexample :
    outcomeOfTriple (analyze_file (.completed 1 "" "")) = .failure "Unknown error" ∧
    specClassifyClaimed 1 "" = .failure "unknown error" ∧
    outcomeOfTriple (analyze_file (.completed 1 "" "")) ≠ specClassifyClaimed 1 "" := by
  decide

/-- Claim C1 (amended): for every analyzer invocation that completes within
the timeout, `analyze_file` classifies its outcome in the claimed precedence
order — non-zero exit gives Failure with the first line of the merged
stdout+stderr output as reason, or the fixed "Unknown error" sentinel when
that output is empty; otherwise "Using cached" in the output gives
Success{cached = true}; otherwise "Analysis cached" gives
Success{cached = false}; otherwise Success{cached = false}. -/
theorem c1_classification (rc : Int) (rawOut rawErr : String) :
    outcomeOfTriple (analyze_file (.completed rc rawOut rawErr)) =
      specClassifyAmended rc (rawOut ++ rawErr) := by
  simp only [analyze_file, specClassifyAmended]
  split_ifs <;> simp_all [outcomeOfTriple]

/-- Claim C2: over every sequence of per-file outcomes the aggregation loop
increments exactly one counter per outcome, so new + cached + failed equals
the number of files processed and the error list length equals the failure
count. -/
theorem c2_aggregator_invariant (l : List (String × (Bool × Bool × String))) :
    (runFold l).success + (runFold l).cached + (runFold l).failed = l.length ∧
    (runFold l).errors.length = (runFold l).failed ∧
    (∀ (s : Stats) (path : String) (r : Bool × Bool × String),
      (accumulate s path r).success + (accumulate s path r).cached +
          (accumulate s path r).failed =
        s.success + s.cached + s.failed + 1) := by
  refine ⟨?_, ?_, ?_⟩
  · simpa [initStats] using runFoldFrom_counts l initStats
  · exact runFoldFrom_errors_len l initStats rfl
  · intro s path r
    unfold accumulate
    split_ifs <;> simp <;> omega

/-- Claim C3 (counterexample): with `--limit 0` on a one-file population the
code processes the whole list (Python truthiness skips the slice for 0), not
the prefix of length min(0, 1) = 0 that the claim predicts. -/
theorem c3_limit_counterexample :
    applyLimit (some 0) ["src/lib.rs"] = ["src/lib.rs"] ∧
    (applyLimit (some 0) ["src/lib.rs"]).length ≠ min 0 1 := by
  decide

/-- Claim C3 (amended): for every file population and every positive limit N,
applying the limit yields exactly the prefix of length min(N, |F|) of the
unlimited list; a limit of 0 is falsy in the guard and leaves the list
untouched. -/
theorem c3_limit_prefix (n : Int) (files : List String) (h : 0 < n) :
    applyLimit (some n) files = files.take n.toNat ∧
    (applyLimit (some n) files).length = min n.toNat files.length := by
  have hne : n ≠ 0 := ne_of_gt h
  refine ⟨by simp [applyLimit, hne, h], ?_⟩
  simp [applyLimit, hne, h, List.length_take]

theorem c3_limit_prefix_witness :
    (0 : Int) < 2 ∧
      (applyLimit (some 2) ["a.rs", "b.rs", "c.rs"] =
          ["a.rs", "b.rs", "c.rs"].take ((2 : Int)).toNat ∧
        (applyLimit (some 2) ["a.rs", "b.rs", "c.rs"]).length =
          min ((2 : Int)).toNat ["a.rs", "b.rs", "c.rs"].length) :=
  ⟨by decide, c3_limit_prefix 2 ["a.rs", "b.rs", "c.rs"] (by decide)⟩

theorem leChars_total (a : List Char) :
    ∀ b : List Char, leChars a b = true ∨ leChars b a = true := by
  induction a with
  | nil => intro b; left; rfl
  | cons x xs ih =>
    intro b
    cases b with
    | nil => right; rfl
    | cons y ys =>
      by_cases hxy : x < y
      · left; simp [leChars, hxy]
      · by_cases hyx : y < x
        · right; simp [leChars, hyx]
        · rcases ih ys with h | h
          · left; simp [leChars, hxy, hyx, h]
          · right; simp [leChars, hxy, hyx, h]

theorem leChars_trans (a : List Char) : ∀ b c : List Char,
    leChars a b = true → leChars b c = true → leChars a c = true := by
  induction a with
  | nil => intro b c _ _; rfl
  | cons x xs ih =>
    intro b c hab hbc
    cases b with
    | nil => simp [leChars] at hab
    | cons y ys =>
      cases c with
      | nil => simp [leChars] at hbc
      | cons z zs =>
        simp only [leChars] at hab hbc ⊢
        by_cases hxy : x < y
        · by_cases hyz : y < z
          · simp [lt_trans hxy hyz]
          · by_cases hzy : z < y
            · simp [hyz, hzy] at hbc
            · have h1 : y = z := le_antisymm (not_lt.mp hzy) (not_lt.mp hyz)
              subst h1
              simp [hxy]
        · by_cases hyx : y < x
          · simp [hxy, hyx] at hab
          · have h1 : x = y := le_antisymm (not_lt.mp hyx) (not_lt.mp hxy)
            subst h1
            simp [lt_self_iff_false] at hab
            by_cases hxz : x < z
            · simp [hxz]
            · by_cases hzx : z < x
              · simp [hxz, hzx] at hbc
              · simp [hxz, hzx] at hbc ⊢
                exact ih ys zs hab hbc

theorem leChars_antisymm (a : List Char) : ∀ b : List Char,
    leChars a b = true → leChars b a = true → a = b := by
  induction a with
  | nil =>
    intro b _ hba
    cases b with
    | nil => rfl
    | cons y ys => simp [leChars] at hba
  | cons x xs ih =>
    intro b hab hba
    cases b with
    | nil => simp [leChars] at hab
    | cons y ys =>
      simp only [leChars] at hab hba
      by_cases hxy : x < y
      · simp [hxy, lt_asymm hxy] at hba
      · by_cases hyx : y < x
        · simp [hxy, hyx] at hab
        · have h1 : x = y := le_antisymm (not_lt.mp hyx) (not_lt.mp hxy)
          subst h1
          simp [lt_self_iff_false] at hab hba
          rw [ih ys hab hba]

/-- Claim C5: for every root population and exclusion-pattern set, file
selection returns no path containing any pattern as a substring, returns its
results sorted in the lexicographic order (a deterministic total order, so
the result is independent of the filesystem iteration order), and a root
yielding zero matches gives the empty list rather than a failure. -/
theorem c5_file_selection (files pats : List String) :
    (∀ p ∈ find_rust_files files (some pats), ∀ q ∈ pats, strContainsSub p q = false) ∧
    List.Sorted (fun a b => strLeb a b = true) (find_rust_files files (some pats)) ∧
    (∀ files2, files.Perm files2 →
      find_rust_files files (some pats) = find_rust_files files2 (some pats)) ∧
    ((rglobRs files).filter (fun f => !(pats.any (fun p => strContainsSub f p))) = [] →
      find_rust_files files (some pats) = []) := by
  have htot : ∀ a b : String, strLeb a b = true ∨ strLeb b a = true :=
    fun a b => leChars_total a.toList b.toList
  have htrans : ∀ a b c : String, strLeb a b = true → strLeb b c = true →
      strLeb a c = true :=
    fun a b c => leChars_trans a.toList b.toList c.toList
  have hanti : ∀ a b : String, strLeb a b = true → strLeb b a = true → a = b :=
    fun a b h1 h2 => String.toList_inj.mp (leChars_antisymm a.toList b.toList h1 h2)
  have hsortfun : ∀ l : List String,
      List.Sorted (fun a b => strLeb a b = true)
        (List.insertionSort (fun a b => strLeb a b = true) l) :=
    fun l => @List.sorted_insertionSort String (fun a b => strLeb a b = true) _
      ⟨htot⟩ ⟨fun a b c => htrans a b c⟩ l
  refine ⟨?_, ?_, ?_, ?_⟩
  · intro p hp q hq
    have hp2 : p ∈ (rglobRs files).filter
        (fun f => !(pats.any (fun pt => strContainsSub f pt))) :=
      (List.perm_insertionSort _ _).subset hp
    have hpred := List.of_mem_filter hp2
    simp only [Bool.not_eq_true', List.any_eq_false] at hpred
    exact Bool.not_eq_true _ ▸ (Bool.eq_false_iff.mpr (hpred q hq))
  · exact hsortfun _
  · intro files2 hperm
    have hfilter : ((rglobRs files).filter
          (fun f => !(pats.any (fun pt => strContainsSub f pt)))).Perm
        ((rglobRs files2).filter
          (fun f => !(pats.any (fun pt => strContainsSub f pt)))) :=
      List.Perm.filter _ (List.Perm.filter _ hperm)
    refine @List.eq_of_perm_of_sorted String (fun a b => strLeb a b = true)
      ⟨hanti⟩ _ _ ?_ (hsortfun _) (hsortfun _)
    exact ((List.perm_insertionSort _ _).trans hfilter).trans
      (List.perm_insertionSort _ _).symm
  · intro h
    have : find_rust_files files (some pats) =
        List.insertionSort (fun a b => strLeb a b = true)
          ((rglobRs files).filter
            (fun f => !(pats.any (fun pt => strContainsSub f pt)))) := rfl
    rw [this, h]
    rfl

theorem c5_file_selection_witness :
    strContainsSub "/repo/src/a.rs" "/target/" = false ∧
    find_rust_files ["/repo/src/b.rs", "/repo/src/a.rs"] (some ["/target/"]) =
      find_rust_files ["/repo/src/a.rs", "/repo/src/b.rs"] (some ["/target/"]) ∧
    find_rust_files ["/readme.txt"] (some ["/target/"]) = [] :=
  ⟨(c5_file_selection ["/repo/src/b.rs", "/repo/src/a.rs"] ["/target/"]).1
      "/repo/src/a.rs" (by decide) "/target/" (by decide),
   (c5_file_selection ["/repo/src/b.rs", "/repo/src/a.rs"] ["/target/"]).2.2.1
      ["/repo/src/a.rs", "/repo/src/b.rs"] (by decide),
   (c5_file_selection ["/readme.txt"] ["/target/"]).2.2.2 (by decide)⟩

/-- Claim C4: a repository record is due for scan iff its auto-scan flag is
true and (its last-scan-check is unset or now minus last-scan-check is at
least interval_minutes * 60 seconds); the boundary at exactly
interval_minutes * 60 counts as due, and a record with the flag false is
never due. -/
theorem c4_eligibility (r : RepositoryRecord) (now : Int) :
    (isDue r now = true ↔
      (r.auto_scan_enabled = true ∧
        (r.last_scan_check = none ∨
          ∃ t, r.last_scan_check = some t ∧
            (r.scan_interval_minutes : Int) * 60 ≤ now - t))) ∧
    (∀ iv : Nat, isDue ⟨true, iv, some (now - (iv : Int) * 60)⟩ now = true) ∧
    (r.auto_scan_enabled = false → isDue r now = false) := by
  refine ⟨?_, ?_, ?_⟩
  · unfold isDue
    cases hl : r.last_scan_check with
    | none => simp
    | some t => simp
  · intro iv
    simp only [isDue, Bool.true_and]
    simp only [decide_eq_true_iff]
    omega
  · intro h
    simp [isDue, h]

theorem c4_eligibility_witness :
    isDue ⟨false, 60, some 0⟩ 1000000 = false ∧
    isDue ⟨true, 60, some 0⟩ 3600 = true ∧
    isDue ⟨true, 60, some 0⟩ 3599 = false :=
  ⟨(c4_eligibility ⟨false, 60, some 0⟩ 1000000).2.2 rfl, by decide, by decide⟩

/-- Claim C6: the commit step is never invoked with an empty stage — with
zero new analyses it is not entered at all; when entered, a commit is issued
only in a git repository with a non-empty stage, and a non-repository is
skipped (not an error). -/
theorem c6_commit_guard (flag : Bool) (s : Stats) (revParseRc diffStagedRc : Int) :
    (s.success = 0 → commitStep flag s revParseRc diffStagedRc = .notEntered) ∧
    (commitStep flag s revParseRc diffStagedRc = .committed →
      flag = true ∧ 0 < s.success ∧ revParseRc = 0 ∧ diffStagedRc ≠ 0) ∧
    (flag = true → 0 < s.success → revParseRc ≠ 0 →
      commitStep flag s revParseRc diffStagedRc = .skippedNotGitRepo) ∧
    (flag = true → 0 < s.success → revParseRc = 0 → diffStagedRc = 0 →
      commitStep flag s revParseRc diffStagedRc = .noChanges) := by
  unfold commitStep
  refine ⟨?_, ?_, ?_, ?_⟩ <;> intros <;> split_ifs at * <;> simp_all

theorem c6_commit_guard_witness :
    commitStep true ⟨0, 5, 0, []⟩ 0 1 = .notEntered ∧
    commitStep true ⟨3, 0, 0, []⟩ 1 1 = .skippedNotGitRepo :=
  ⟨(c6_commit_guard true ⟨0, 5, 0, []⟩ 0 1).1 rfl,
   (c6_commit_guard true ⟨3, 0, 0, []⟩ 1 1).2.2.1 rfl (by decide) (by decide)⟩

/-- Claim C7: past the preconditions, the process exit status is non-zero iff
the failure count is positive, and a run that discovers zero eligible files
exits with success status. -/
theorem c7_exit_status (l : List (String × (Bool × Bool × String))) :
    (runExitCode l ≠ 0 ↔ 0 < (runFold l).failed) ∧ runExitCode [] = 0 := by
  refine ⟨?_, rfl⟩
  cases l with
  | nil => simp [runExitCode, runFold, runFoldFrom, initStats]
  | cons x xs =>
    unfold runExitCode
    split_ifs with h1 h2 <;> simp_all

/-- Claim C10: the exclusion set handed to file discovery always contains
"/tests/", "/benches/" and "/examples/" on top of "/target/" and "/.git/",
because `--exclude-tests` is a store-true flag whose default is already true
and therefore cannot be turned off from the command line. -/
theorem c10_exclude_tests_forced (flagPresent : Bool) :
    mainExcludePatterns flagPresent =
      ["/target/", "/.git/", "/tests/", "/benches/", "/examples/"] ∧
    "/tests/" ∈ mainExcludePatterns flagPresent ∧
    "/benches/" ∈ mainExcludePatterns flagPresent ∧
    "/examples/" ∈ mainExcludePatterns flagPresent ∧
    exclude_tests_value flagPresent = true := by
  cases flagPresent <;> exact ⟨rfl, by decide, by decide, by decide, rfl⟩

/-- Claim C8: a timeout or any unexpected exception during a single-file
invocation is turned into a per-file failure triple with a diagnostic reason,
is recorded in the run statistics, and does not stop the remaining files from
being processed (every file of the run is still accumulated). -/
theorem c8_error_recovery (msg path : String)
    (pre post : List (String × (Bool × Bool × String))) (r : Bool × Bool × String)
    (hfail : r.1 = false) :
    analyze_file .timedOut = (false, false, "timeout") ∧
    analyze_file (.raised msg) = (false, false, msg) ∧
    (runFold (pre ++ (path, r) :: post)).success +
        (runFold (pre ++ (path, r) :: post)).cached +
        (runFold (pre ++ (path, r) :: post)).failed =
      pre.length + 1 + post.length ∧
    (path, r.2.2) ∈ (runFold (pre ++ (path, r) :: post)).errors := by
  refine ⟨rfl, rfl, ?_, ?_⟩
  · unfold runFold
    have h := runFoldFrom_counts (pre ++ (path, r) :: post) initStats
    simp only [initStats, List.length_append, List.length_cons] at h ⊢
    omega
  · have hsplit : runFold (pre ++ (path, r) :: post) =
        runFoldFrom (accumulate (runFoldFrom initStats pre) path r) post := by
      unfold runFold runFoldFrom
      rw [List.foldl_append]
      rfl
    rw [hsplit]
    refine mem_errors_runFoldFrom post _ _ ?_
    unfold accumulate
    rw [hfail]
    simp

theorem c8_error_recovery_witness :
    analyze_file .timedOut = (false, false, "timeout") ∧
    analyze_file (.raised "no such file") = (false, false, "no such file") ∧
    (runFold ([] ++ ("src/a.rs", analyze_file .timedOut) ::
          [("src/b.rs", (true, false, "new"))])).success +
        (runFold ([] ++ ("src/a.rs", analyze_file .timedOut) ::
          [("src/b.rs", (true, false, "new"))])).cached +
        (runFold ([] ++ ("src/a.rs", analyze_file .timedOut) ::
          [("src/b.rs", (true, false, "new"))])).failed =
      List.length ([] : List (String × (Bool × Bool × String))) + 1 +
        List.length [("src/b.rs", ((true : Bool), (false : Bool), "new"))] ∧
    ("src/a.rs", (analyze_file .timedOut).2.2) ∈
      (runFold ([] ++ ("src/a.rs", analyze_file .timedOut) ::
        [("src/b.rs", (true, false, "new"))])).errors :=
  c8_error_recovery "no such file" "src/a.rs" []
    [("src/b.rs", (true, false, "new"))] (analyze_file .timedOut) rfl

theorem add_repo_fresh (st : List RepoRecord) (ca : Bool) (p n i : String) (tt : Int)
    (hnew : (st.filter (fun r => r.path = p)).length = 0) :
    add_repo st true ca p n i tt =
      (st ++ [{ id := i, path := p, name := n, status := "active",
                auto_scan_enabled := false, scan_interval_minutes := 60,
                created_at := tt, updated_at := tt }],
       true, "Added repository: " ++ n) := by
  unfold add_repo
  simp [hnew]

theorem add_repo_dup (st : List RepoRecord) (ca : Bool) (p n i : String) (tt : Int)
    (hdup : 0 < (st.filter (fun r => r.path = p)).length) :
    add_repo st true ca p n i tt = (st, false, "Repository already exists: " ++ n) := by
  unfold add_repo
  simp [hdup]

/-- Claim C9: adding a repository at an already-present path is rejected with
the distinct "already exists" message, which differs from the "not found"
message that enable-scan produces for a missing name, and after the rejected
second add the store holds exactly one record for that path. -/
theorem c9_duplicate_add (store : List RepoRecord) (path name1 name2 id1 id2 : String)
    (t1 t2 : Int) (hfresh : (store.filter (fun r => r.path = path)).length = 0) :
    (add_repo store true true path name1 id1 t1).2.1 = true ∧
    (add_repo (add_repo store true true path name1 id1 t1).1
        true true path name2 id2 t2).2.1 = false ∧
    (add_repo (add_repo store true true path name1 id1 t1).1
        true true path name2 id2 t2).2.2 = "Repository already exists: " ++ name2 ∧
    ((add_repo (add_repo store true true path name1 id1 t1).1
          true true path name2 id2 t2).1.filter
        (fun r => r.path = path)).length = 1 ∧
    (∀ (st : List RepoRecord) (nm : String) (iv : Nat) (now : Int),
      (st.filter (fun r => r.name = nm)).length = 0 →
      (enable_scan st nm iv now).2.1 = false ∧
      (enable_scan st nm iv now).2.2 = "Repository not found: " ++ nm) ∧
    (∀ nm : String,
      ("Repository already exists: " ++ nm : String) ≠
        "Repository not found: " ++ nm) := by
  have hstore : store.filter (fun r => r.path = path) = [] :=
    List.length_eq_zero.mp hfresh
  have hfirst := add_repo_fresh store true path name1 id1 t1 hfresh
  have hfilter1 : ((add_repo store true true path name1 id1 t1).1.filter
      (fun r => r.path = path)).length = 1 := by
    rw [hfirst]
    simp [List.filter_append, hstore]
  have hsecond := add_repo_dup (add_repo store true true path name1 id1 t1).1
    true path name2 id2 t2 (by rw [hfilter1]; exact Nat.one_pos)
  refine ⟨?_, ?_, ?_, ?_, ?_, ?_⟩
  · rw [hfirst]
  · rw [hsecond]
  · rw [hsecond]
  · rw [hsecond]
    exact hfilter1
  · intro st nm iv now h
    have hnil : st.filter (fun r => r.name = nm) = [] := List.length_eq_zero.mp h
    constructor <;> · unfold enable_scan; simp [hnil]
  · intro nm h
    have hlen := congrArg String.length h
    have e1 : ("Repository already exists: " : String).length = 27 := rfl
    have e2 : ("Repository not found: " : String).length = 22 := rfl
    rw [String.length_append, String.length_append, e1, e2] at hlen
    omega

theorem c9_duplicate_add_witness :
    (add_repo [] true true "/home/jordan/github/fks" "fks" "id1" 100).2.1 = true ∧
    (add_repo (add_repo [] true true "/home/jordan/github/fks" "fks" "id1" 100).1
        true true "/home/jordan/github/fks" "fks" "id2" 200).2.1 = false ∧
    (add_repo (add_repo [] true true "/home/jordan/github/fks" "fks" "id1" 100).1
        true true "/home/jordan/github/fks" "fks" "id2" 200).2.2 =
      "Repository already exists: " ++ "fks" ∧
    ((add_repo (add_repo [] true true "/home/jordan/github/fks" "fks" "id1" 100).1
          true true "/home/jordan/github/fks" "fks" "id2" 200).1.filter
        (fun r => r.path = "/home/jordan/github/fks")).length = 1 ∧
    (enable_scan [] "ghost" 60 300).2.1 = false ∧
    (enable_scan [] "ghost" 60 300).2.2 = "Repository not found: " ++ "ghost" ∧
    ("Repository already exists: " ++ "fks" : String) ≠
      "Repository not found: " ++ "fks" := by
  have h := c9_duplicate_add [] "/home/jordan/github/fks" "fks" "fks" "id1" "id2"
    100 200 rfl
  have he := h.2.2.2.2.1 [] "ghost" 60 300 rfl
  exact ⟨h.1, h.2.1, h.2.2.1, h.2.2.2.1, he.1, he.2, h.2.2.2.2.2 "fks"⟩

end Audit
